import Mathlib

/-!
# Verification of the `FileInterface` operation layer (src/vsutil/fileinterface.ts)

Shallow embedding of the backend-agnostic transfer-operation wrapper:
filename transcoding between wire and host charsets, state-bar
announce/settle reporting, error-code swallowing, and the suspect-name
collection of `list`.

Each public operation is modelled as a pure function from its inputs and
the (abstract) backend's outcome to a trace of observable events plus a
result.  JavaScript promise rejection is an `Except.error` result; a
synchronous `throw` (before any promise is constructed) is the separate
`Outcome.thrown` constructor.  The `setTimeout(..., 0)` deferral of the
invalid-encoding callback is recorded as a `schedule` event in the trace:
the callback itself never runs during the synchronous part of the call.
-/

namespace FtpKr

/-- An error signal, as raised by a backend primitive: the optional
`ftpCode` classification attached to the `Error` object (absent when the
raising layer attached none) plus the message. -/
structure Err where
  ftpCode : Option Nat
  message : String
deriving DecidableEq, Repr

/-- The `FtpErrorCode` enum from fileinterface.ts. -/
def FtpErrorCode.REQUEST_MKDIR : Nat := 1

/-- The `FtpErrorCode.FILE_NOT_FOUND` from fileinterface.ts. -/
def FtpErrorCode.FILE_NOT_FOUND : Nat := 2

/-- A charset as used through iconv-lite: encodes a host string to bytes
and decodes bytes back to a host string.  The concrete tables live in the
external iconv-lite package; concrete instances below. -/
structure Charset where
  encode : String → List Nat
  decode : List Nat → String

/-- The `'binary'` (latin1) charset of iconv-lite: decoding maps each byte
to the code point of the same value; encoding maps a code point above 0xFF
to the default substitution byte `'?'` (0x3F). -/
def latin1 : Charset where
  encode s := s.data.map (fun c => if c.toNat ≤ 255 then c.toNat else 63)
  decode bs := String.mk (bs.map Char.ofNat)

/-- The `FileInterface.bin2str`: re-encode the binary-decoded wire string to
raw bytes, then decode those bytes in the configured charset. -/
def bin2str (enc : Charset) (bin : String) : String :=
  enc.decode (latin1.encode bin)

/-- The `FileInterface.str2bin`: encode the host string in the configured
charset, then decode the bytes as `'binary'`. -/
def str2bin (enc : Charset) (s : String) : String :=
  latin1.decode (enc.encode s)

/-- The slice of `ServerConfig` the operation layer reads: the display
name (`none` models an unset/empty, i.e. falsy, name), the configured
`fileNameEncoding` charset, and `ignoreWrongFileEncoding`. -/
structure ServerConfig where
  name : Option String
  fileNameEncoding : Charset
  ignoreWrongFileEncoding : Bool

/-- Observable events of one operation, in program order:
`stateSet` is `stateBar.set`, `stateClose` is `stateBar.close`, `logMsg`
is `logger.message`, `backendCall` is the invocation of an abstract
backend primitive (with its already-transcoded wire arguments), and
`schedule` is the `setTimeout(() => oninvalidencoding(errfiles), 0)`
enqueueing of the deferred invalid-encoding callback. -/
inductive Event where
  | stateSet (msg : String)
  | logMsg (msg : String)
  | stateClose
  | backendCall (primitive : String) (args : List String)
  | schedule (errfiles : List String)
deriving DecidableEq, Repr

/-- Message prefixing shared by `logWithState` and `log`:
`config.name ? config.name + "> " + command : command`. -/
def withName (cfg : ServerConfig) (command : String) : String :=
  match cfg.name with
  | some n => n ++ "> " ++ command
  | none => command

/-- The `FileInterface.logWithState`: set the state bar and log the same
message. -/
def logWithState (cfg : ServerConfig) (command : String) : List Event :=
  [Event.stateSet (withName cfg command), Event.logMsg (withName cfg command)]

/-- The `FileInterface.log`: log only. -/
def logOnly (cfg : ServerConfig) (command : String) : List Event :=
  [Event.logMsg (withName cfg command)]

/-- The `FileInterface._callWithName`: announce `name + ' ' + ftppath`, call
the backend on the transcoded path, then close the state bar; a failure
whose `ftpCode` strictly equals `ignorecode` is swallowed into `defVal`,
any other failure is logged (`name + " fail: " + ftppath`) and rethrown. -/
def callWithName {α : Type} (cfg : ServerConfig) (name ftppath : String)
    (ignorecode : Nat) (defVal : α) (res : Except Err α) :
    List Event × Except Err α :=
  let pre := logWithState cfg (name ++ " " ++ ftppath) ++
    [Event.backendCall name [str2bin cfg.fileNameEncoding ftppath]]
  match res with
  | .ok v => (pre ++ [Event.stateClose], .ok v)
  | .error e =>
    if e.ftpCode = some ignorecode then
      (pre ++ [Event.stateClose], .ok defVal)
    else
      (pre ++ [Event.stateClose] ++ logOnly cfg (name ++ " fail: " ++ ftppath),
        .error e)

/-- The `FileInterface.rmdir`: `_callWithName` with `FILE_NOT_FOUND` swallowed
into `undefined`. -/
def rmdir (cfg : ServerConfig) (ftppath : String) (res : Except Err Unit) :
    List Event × Except Err Unit :=
  callWithName cfg "rmdir" ftppath FtpErrorCode.FILE_NOT_FOUND () res

/-- The `FileInterface.delete`: `_callWithName` with `FILE_NOT_FOUND`
swallowed into `undefined`. -/
def deleteOp (cfg : ServerConfig) (ftppath : String) (res : Except Err Unit) :
    List Event × Except Err Unit :=
  callWithName cfg "delete" ftppath FtpErrorCode.FILE_NOT_FOUND () res

/-- The `FileInterface.mkdir`: `_callWithName` with ignore code `0`. -/
def mkdir (cfg : ServerConfig) (ftppath : String) (res : Except Err Unit) :
    List Event × Except Err Unit :=
  callWithName cfg "mkdir" ftppath 0 () res

/-- The `FileInterface.upload`: announce, `_put`, close; a failure is logged
with the error message and rethrown (`errorMessageOverride` is never
assigned in the source, so the log always uses `err.message`). -/
def upload (cfg : ServerConfig) (ftppath : String) (res : Except Err Unit) :
    List Event × Except Err Unit :=
  let pre := logWithState cfg ("upload " ++ ftppath) ++
    [Event.backendCall "put" [str2bin cfg.fileNameEncoding ftppath]]
  match res with
  | .ok _ => (pre ++ [Event.stateClose], .ok ())
  | .error e =>
    (pre ++ [Event.stateClose] ++
      logOnly cfg ("upload fail: " ++ ftppath ++ ", " ++ e.message),
      .error e)

/-- Terminal outcome of the byte stream returned by `_get`: whichever of
the `close` / `error` events fires first settles the operation. -/
inductive StreamOutcome where
  | closed
  | errored (e : Err)
deriving DecidableEq, Repr

/-- The `FileInterface.download`: announce, `_get`, pipe the stream into the
local file; `close` resolves and `error` rejects, each closing the state
bar; a `_get` failure is logged and rethrown. -/
def download (cfg : ServerConfig) (ftppath : String)
    (res : Except Err StreamOutcome) : List Event × Except Err Unit :=
  let pre := logWithState cfg ("download " ++ ftppath) ++
    [Event.backendCall "get" [str2bin cfg.fileNameEncoding ftppath]]
  match res with
  | .ok .closed => (pre ++ [Event.stateClose], .ok ())
  | .ok (.errored e) => (pre ++ [Event.stateClose], .error e)
  | .error e =>
    (pre ++ [Event.stateClose] ++ logOnly cfg ("download fail: " ++ ftppath),
      .error e)

/-- The `FileInterface.view`: like `download` but accumulates `data` chunks in
arrival order and resolves with their concatenation on `close`. -/
def view (cfg : ServerConfig) (ftppath : String)
    (res : Except Err (List (List Nat) × StreamOutcome)) :
    List Event × Except Err (List Nat) :=
  let pre := logWithState cfg ("view " ++ ftppath) ++
    [Event.backendCall "get" [str2bin cfg.fileNameEncoding ftppath]]
  match res with
  | .ok (chunks, .closed) => (pre ++ [Event.stateClose], .ok chunks.flatten)
  | .ok (_, .errored e) => (pre ++ [Event.stateClose], .error e)
  | .error e =>
    (pre ++ [Event.stateClose] ++ logOnly cfg ("view fail: " ++ ftppath),
      .error e)

/-- The `FileInterface.write`: announce, `_write`, close; a failure is logged
and rethrown. -/
def write (cfg : ServerConfig) (ftppath : String) (res : Except Err Unit) :
    List Event × Except Err Unit :=
  let pre := logWithState cfg ("write " ++ ftppath) ++
    [Event.backendCall "write" [str2bin cfg.fileNameEncoding ftppath]]
  match res with
  | .ok _ => (pre ++ [Event.stateClose], .ok ())
  | .error e =>
    (pre ++ [Event.stateClose] ++ logOnly cfg ("write fail: " ++ ftppath),
      .error e)

/-- The `FileInterface.rename`: announce both paths, `_rename`, close; a
failure is logged with both paths and the message and rethrown. -/
def rename (cfg : ServerConfig) (ftppathFrom ftppathTo : String)
    (res : Except Err Unit) : List Event × Except Err Unit :=
  let pre := logWithState cfg ("rename " ++ ftppathFrom ++ " " ++ ftppathTo) ++
    [Event.backendCall "rename"
      [str2bin cfg.fileNameEncoding ftppathFrom,
       str2bin cfg.fileNameEncoding ftppathTo]]
  match res with
  | .ok _ => (pre ++ [Event.stateClose], .ok ())
  | .error e =>
    (pre ++ [Event.stateClose] ++
      logOnly cfg ("rename fail: " ++ ftppathFrom ++ " " ++ ftppathTo ++ ", " ++
        e.message),
      .error e)

/-- A directory entry (`FileInfo` from util/fileinfo.ts, the fields the
operation layer touches): the name (wire form as produced by `_list`,
mutated to host form during `list`), the type discriminator character
(`'l'` for symlinks), and the lazily populated resolved link target. -/
structure FileInfo where
  name : String
  type : Char
  link : Option String
deriving DecidableEq, Repr

/-- The Unicode replacement character U+FFFD. -/
def replacementChar : Char := Char.ofNat 0xFFFD

/-- JavaScript `s.indexOf(c) !== -1`: membership of a character in a
string. -/
def strContains (s : String) (c : Char) : Bool :=
  s.data.contains c

/-- JavaScript `s.startsWith(pre)`. -/
def strStartsWith (s pre : String) : Bool :=
  pre.data.isPrefixOf s.data

/-- The suspect-name test of `FileInterface.list` (line 191): the
transcoded name contains U+FFFD or a literal question mark. -/
def suspectName (fn : String) : Bool :=
  strContains fn replacementChar || strContains fn '?'

/-- The entry-processing loop of `FileInterface.list` (lines 184-194):
each entry's name is transcoded in place with `bin2str`, and, when
`ignoreWrongFileEncoding` is unset, suspect transcoded names are pushed
onto `errfiles` in iteration order. -/
def processEntries (enc : Charset) (ignore : Bool) :
    List FileInfo → List FileInfo × List String
  | [] => ([], [])
  | f :: rest =>
    let fn := bin2str enc f.name
    let (fs, errs) := processEntries enc ignore rest
    ({ f with name := fn } :: fs,
      if !ignore && suspectName fn then fn :: errs else errs)

/-- The `FileInterface.list`: an empty path defaults to `"."`; announce,
`_list` on the transcoded path, close the state bar, transcode every
entry name, and when suspect names were collected enqueue one deferred
`oninvalidencoding` call carrying them; a `_list` failure is logged with
the message and rethrown. -/
def list (cfg : ServerConfig) (ftppath : String)
    (res : Except Err (List FileInfo)) :
    List Event × Except Err (List FileInfo) :=
  let p := if ftppath = "" then "." else ftppath
  let pre := logWithState cfg ("list " ++ p) ++
    [Event.backendCall "list" [str2bin cfg.fileNameEncoding p]]
  match res with
  | .ok entries =>
    let pr :=
      processEntries cfg.fileNameEncoding cfg.ignoreWrongFileEncoding entries
    (pre ++ [Event.stateClose] ++
      (if pr.snd.isEmpty then [] else [Event.schedule pr.snd]),
      .ok pr.fst)
  | .error e =>
    (pre ++ [Event.stateClose] ++
      logOnly cfg ("list fail: " ++ p ++ ", " ++ e.message),
      .error e)

/-- How a call returns to its caller: `thrown` is a synchronous JavaScript
`throw` escaping the call itself before any promise is constructed;
`promise` is a returned promise that later settles with the given
result. -/
inductive Outcome (α : Type) where
  | thrown (e : Err)
  | promise (res : Except Err α)
deriving Repr

/-- The `FileInterface.readlink`: a non-symlink entry makes the call throw
synchronously, before any state/log activity and before `_readlink`;
otherwise announce (with the entry's name), call `_readlink` on the
transcoded path, resolve the raw target (absolute targets are normalized
as-is, relative ones against the link's parent via
`ftppath + '/../' + v`), write it back into the entry's `link` field,
close the state bar and resolve with it; a backend failure is logged with
the entry's name and the message and rethrown.  `normalize` is the
black-box `ftp_path.normalize`. -/
def readlink (cfg : ServerConfig) (normalize : String → String)
    (fileinfo : FileInfo) (ftppath : String) (res : Except Err String) :
    List Event × Outcome (String × FileInfo) :=
  if fileinfo.type ≠ 'l' then
    ([], .thrown ⟨none, ftppath ++ " is not symlink"⟩)
  else
    let pre := logWithState cfg ("readlink " ++ fileinfo.name) ++
      [Event.backendCall "readlink" [str2bin cfg.fileNameEncoding ftppath]]
    match res with
    | .ok v₀ =>
      let v := if strStartsWith v₀ "/" then normalize v₀
        else normalize (ftppath ++ "/../" ++ v₀)
      (pre ++ [Event.stateClose], .promise (.ok (v, { fileinfo with link := some v })))
    | .error e =>
      (pre ++ [Event.stateClose] ++
        logOnly cfg ("readlink fail: " ++ fileinfo.name ++ ", " ++ e.message),
        .promise (.error e))

/-- Number of `stateBar.set` calls in a trace. -/
def countSet (evs : List Event) : Nat :=
  evs.countP (fun ev => match ev with | .stateSet _ => true | _ => false)

/-- Number of `stateBar.close` calls in a trace. -/
def countClose (evs : List Event) : Nat :=
  evs.countP (fun ev => match ev with | .stateClose => true | _ => false)

/-- The log lines of a trace, in order. -/
def logMsgs (evs : List Event) : List String :=
  evs.filterMap (fun ev => match ev with | .logMsg m => some m | _ => none)

/-- The backend primitives invoked by a trace, in order. -/
def backendCalls (evs : List Event) : List String :=
  evs.filterMap (fun ev => match ev with | .backendCall p _ => some p | _ => none)

/-- The deferred invalid-encoding callback invocations enqueued by a
trace, each with its name list. -/
def schedules (evs : List Event) : List (List String) :=
  evs.filterMap (fun ev => match ev with | .schedule ns => some ns | _ => none)

/-! ## Concrete instances used by witnesses -/

/-- A sample configuration: display name `srv`, `fileNameEncoding`
`latin1`, encoding errors not tolerated. -/
def cfg0 : ServerConfig := ⟨some "srv", latin1, false⟩

/-- A sample symlink entry. -/
def fiLink : FileInfo := ⟨"link", 'l', none⟩

/-- A sample directory (non-symlink) entry. -/
def fiDir : FileInfo := ⟨"entry", 'd', none⟩

/-! ## Claims -/

/-- C9: `list("")` behaves identically to `list(".")`: the guard
`if (!ftppath) ftppath = "."` replaces the falsy empty string by `"."`
before anything else happens, so the whole observable behaviour — trace
(state message, log line, backend argument, scheduling) and result — is
the same function of the backend's answer. -/
theorem list_empty_eq_dot (cfg : ServerConfig)
    (res : Except Err (List FileInfo)) :
    list cfg "" res = list cfg "." res := rfl

/-- C3: `readlink` on an entry whose type is not `'l'` fails without
invoking any backend primitive: the trace is empty (in particular no
`backendCall`, so `_readlink` is never reached) and the call throws. -/
theorem readlink_nonsymlink_no_backend (cfg : ServerConfig)
    (normalize : String → String) (fi : FileInfo) (p : String)
    (res : Except Err String) (h : fi.type ≠ 'l') :
    backendCalls (readlink cfg normalize fi p res).fst = [] ∧
    (readlink cfg normalize fi p res).fst = [] ∧
    (readlink cfg normalize fi p res).snd =
      Outcome.thrown ⟨none, p ++ " is not symlink"⟩ := by
  simp [readlink, h, backendCalls]

/-- Witness for C3 at a concrete non-symlink entry. -/
theorem readlink_nonsymlink_no_backend_witness :
    fiDir.type ≠ 'l' ∧
    backendCalls (readlink cfg0 id fiDir "/a" (.ok "x")).fst = [] :=
  ⟨by decide,
    (readlink_nonsymlink_no_backend cfg0 id fiDir "/a" (.ok "x") (by decide)).1⟩

/-- C10: the non-symlink failure of `readlink` is raised synchronously
(the `throw` happens before the promise chain is built), and neither
`stateBar.set` nor `stateBar.close` is invoked on this path. -/
theorem readlink_nonsymlink_sync (cfg : ServerConfig)
    (normalize : String → String) (fi : FileInfo) (p : String)
    (res : Except Err String) (h : fi.type ≠ 'l') :
    (readlink cfg normalize fi p res).snd =
      Outcome.thrown ⟨none, p ++ " is not symlink"⟩ ∧
    countSet (readlink cfg normalize fi p res).fst = 0 ∧
    countClose (readlink cfg normalize fi p res).fst = 0 := by
  simp [readlink, h, countSet, countClose]

/-- Witness for C10 at a concrete non-symlink entry. -/
theorem readlink_nonsymlink_sync_witness :
    fiDir.type ≠ 'l' ∧
    (readlink cfg0 id fiDir "/b" (.error ⟨none, "boom"⟩)).snd =
      Outcome.thrown ⟨none, "/b is not symlink"⟩ :=
  ⟨by decide,
    (readlink_nonsymlink_sync cfg0 id fiDir "/b" (.error ⟨none, "boom"⟩)
      (by decide)).1⟩

/-- C4: on a symlink entry whose backend returns raw target `t`, the
resolved value is `normalize t` when `t` starts with `'/'` and
`normalize (ftppath ++ "/../" ++ t)` otherwise, and that value is written
back into the entry's `link` field before the promise resolves with it. -/
theorem readlink_resolution (cfg : ServerConfig)
    (normalize : String → String) (fi : FileInfo) (p t : String)
    (h : fi.type = 'l') :
    (readlink cfg normalize fi p (.ok t)).snd =
      Outcome.promise (.ok
        (if strStartsWith t "/" then normalize t
          else normalize (p ++ "/../" ++ t),
         { fi with link := some (if strStartsWith t "/" then normalize t
            else normalize (p ++ "/../" ++ t)) })) := by
  simp [readlink, h]

/-- Witness for C4: relative target `c` under `/a/b/link` resolves to
`normalize "/a/b/link/../c"` (with `normalize = id` here) and is written
into the `link` field. -/
theorem readlink_resolution_witness :
    fiLink.type = 'l' ∧
    (readlink cfg0 id fiLink "/a/b/link" (.ok "c")).snd =
      Outcome.promise (.ok ("/a/b/link/../c",
        { fiLink with link := some "/a/b/link/../c" })) :=
  ⟨rfl, by
    have hs : strStartsWith "c" "/" = false := by decide
    simpa [hs] using readlink_resolution cfg0 id fiLink "/a/b/link" "c" rfl⟩

/-- C5: a backend failure of `rmdir` or `delete` classified
`FILE_NOT_FOUND` is swallowed: the call resolves with `undefined` and the
only log line is the announce message (no failure line); a failure with
any other classification leaves the announce line plus exactly one
failure line and is rethrown. -/
theorem rmdir_delete_notfound (cfg : ServerConfig) (p : String) (e : Err) :
    (e.ftpCode = some FtpErrorCode.FILE_NOT_FOUND →
      (rmdir cfg p (.error e)).snd = .ok () ∧
      (deleteOp cfg p (.error e)).snd = .ok () ∧
      logMsgs (rmdir cfg p (.error e)).fst = [withName cfg ("rmdir " ++ p)] ∧
      logMsgs (deleteOp cfg p (.error e)).fst =
        [withName cfg ("delete " ++ p)]) ∧
    (e.ftpCode ≠ some FtpErrorCode.FILE_NOT_FOUND →
      (rmdir cfg p (.error e)).snd = .error e ∧
      (deleteOp cfg p (.error e)).snd = .error e ∧
      logMsgs (rmdir cfg p (.error e)).fst =
        [withName cfg ("rmdir " ++ p), withName cfg ("rmdir fail: " ++ p)] ∧
      logMsgs (deleteOp cfg p (.error e)).fst =
        [withName cfg ("delete " ++ p),
         withName cfg ("delete fail: " ++ p)]) := by
  constructor <;> intro h <;>
    simp only [FtpErrorCode.FILE_NOT_FOUND] at h <;>
    simp [rmdir, deleteOp, callWithName, FtpErrorCode.FILE_NOT_FOUND, h,
      logMsgs, logWithState, logOnly]

/-- Witness for C5: a `FILE_NOT_FOUND` failure of `rmdir` resolves with
`undefined`. -/
theorem rmdir_delete_notfound_witness :
    (Err.mk (some FtpErrorCode.FILE_NOT_FOUND) "nf").ftpCode =
      some FtpErrorCode.FILE_NOT_FOUND ∧
    (rmdir cfg0 "/p" (.error ⟨some FtpErrorCode.FILE_NOT_FOUND, "nf"⟩)).snd =
      .ok () :=
  ⟨rfl,
    ((rmdir_delete_notfound cfg0 "/p"
      ⟨some FtpErrorCode.FILE_NOT_FOUND, "nf"⟩).1 rfl).1⟩

/-- C6: `mkdir` resolves exactly when the backend succeeds or the failure
carries `ftpCode === 0`; any other failure — including one carrying no
`ftpCode` — is logged (announce line plus one failure line) and
rethrown. -/
theorem mkdir_swallow_zero (cfg : ServerConfig) (p : String)
    (res : Except Err Unit) :
    ((mkdir cfg p res).snd = .ok () ↔
      res = .ok () ∨ ∃ e, res = .error e ∧ e.ftpCode = some 0) ∧
    (∀ e, res = .error e → e.ftpCode ≠ some 0 →
      (mkdir cfg p res).snd = .error e ∧
      logMsgs (mkdir cfg p res).fst =
        [withName cfg ("mkdir " ++ p),
         withName cfg ("mkdir fail: " ++ p)]) := by
  cases res with
  | ok v => simp [mkdir, callWithName]
  | error e =>
    by_cases he : e.ftpCode = some 0 <;>
      simp [mkdir, callWithName, he, logMsgs, logWithState, logOnly]

/-- Witness for C6: a failure with no `ftpCode` at all propagates out of
`mkdir`. -/
theorem mkdir_swallow_zero_witness :
    (Err.mk none "denied").ftpCode ≠ some 0 ∧
    (mkdir cfg0 "/q" (.error ⟨none, "denied"⟩)).snd =
      .error ⟨none, "denied"⟩ :=
  ⟨by decide,
    ((mkdir_swallow_zero cfg0 "/q" (.error ⟨none, "denied"⟩)).2
      ⟨none, "denied"⟩ rfl (by decide)).1⟩

/-- With `ignoreWrongFileEncoding` unset, the `errfiles` collected by the
listing loop are exactly the transcoded names satisfying the source's
suspect test, in entry order. -/
theorem processEntries_errs (enc : Charset) (l : List FileInfo) :
    (processEntries enc false l).snd =
      (l.map (fun f => bin2str enc f.name)).filter suspectName := by
  induction l with
  | nil => simp [processEntries]
  | cons f rest ih =>
    simp only [processEntries, List.map_cons, List.filter_cons, ih]
    by_cases hs : suspectName (bin2str enc f.name) <;> simp [hs]

/-- With `ignoreWrongFileEncoding` set, the listing loop collects
nothing. -/
theorem processEntries_errs_ignore (enc : Charset) (l : List FileInfo) :
    (processEntries enc true l).snd = [] := by
  induction l with
  | nil => simp [processEntries]
  | cons f rest ih => simp [processEntries, ih]

/-- The listing loop transcodes every entry's name in place and changes
nothing else. -/
theorem processEntries_names (enc : Charset) (ign : Bool)
    (l : List FileInfo) :
    (processEntries enc ign l).fst =
      l.map (fun f => { f with name := bin2str enc f.name }) := by
  induction l with
  | nil => simp [processEntries]
  | cons f rest ih => simp [processEntries, ih]

/-- Modelled from the spec: the spec's suspect criterion — "contains the
Unicode replacement character or a literal `?` that was not present in
the name before transcoding" (§4.1) — stated over the pre- and
post-transcoding name, for comparison with the source's `suspectName`. -/
def suspectSpec (pre post : String) : Bool :=
  strContains post replacementChar ||
    (strContains post '?' && !(strContains pre '?'))

/-- C2 counterexample: the wire name `a?` transcodes (under `latin1`) to
`a?`, whose `?` was already present before transcoding, so the claim says
it is not suspect and must not be collected; the code nevertheless
collects it and schedules the invalid-encoding callback with it. -/
theorem suspect_preexisting_question_mark :
    suspectSpec "a?" (bin2str latin1 "a?") = false ∧
    schedules (list cfg0 "dir" (.ok [⟨"a?", '-', none⟩])).fst = [["a?"]] := by
  decide

/-- The schedule events of a successful `list`, in both tolerance
modes: nothing when `ignoreWrongFileEncoding` is set or no transcoded
name is suspect, otherwise one callback carrying the suspect names. -/
theorem list_ok_schedules (cfg : ServerConfig) (p : String)
    (entries : List FileInfo) :
    schedules (list cfg p (.ok entries)).fst =
      (if cfg.ignoreWrongFileEncoding then []
       else if ((entries.map (fun f => bin2str cfg.fileNameEncoding f.name)).filter
            suspectName).isEmpty
        then []
        else [(entries.map (fun f => bin2str cfg.fileNameEncoding f.name)).filter
            suspectName]) := by
  cases hig : cfg.ignoreWrongFileEncoding with
  | true =>
    simp only [list, hig, processEntries_errs_ignore, if_true]
    simp [schedules, logWithState, logOnly, List.filterMap_append]
  | false =>
    simp only [list, hig, processEntries_errs, if_false]
    split
    all_goals
      simp only [schedules, logWithState, logOnly, List.filterMap_append]
      split <;> simp_all [schedules]

/-- C2 amended: a transcoded name is collected for the invalid-encoding
callback (when suspect names are not tolerated) iff it contains the
Unicode replacement character or a literal `?` — regardless of whether
the `?` was already present before transcoding. -/
theorem list_collects_suspects (cfg : ServerConfig) (p : String)
    (entries : List FileInfo) (h : cfg.ignoreWrongFileEncoding = false) :
    schedules (list cfg p (.ok entries)).fst =
      (if ((entries.map (fun f => bin2str cfg.fileNameEncoding f.name)).filter
            suspectName).isEmpty
        then []
        else [(entries.map (fun f => bin2str cfg.fileNameEncoding f.name)).filter
            suspectName]) := by
  simpa [h] using list_ok_schedules cfg p entries

/-- Witness for C2's amended claim at a concrete suspect listing. -/
theorem list_collects_suspects_witness :
    cfg0.ignoreWrongFileEncoding = false ∧
    schedules (list cfg0 "dir" (.ok [⟨"a?", '-', none⟩,
      ⟨"ok", '-', none⟩])).fst = [["a?"]] := by
  refine ⟨rfl, ?_⟩
  rw [list_collects_suspects cfg0 "dir" _ rfl]
  decide

/-- C7: a successful `list` schedules the invalid-encoding callback
exactly once, carrying exactly the suspect transcoded names, when
`ignoreWrongFileEncoding` is unset and at least one name is suspect, and
schedules nothing otherwise.  The callback appears in the trace only as a
`schedule` (`setTimeout(..., 0)`) event: the synchronous part of `list`
never invokes it, so it cannot run before `list` has returned. -/
theorem list_schedule_once (cfg : ServerConfig) (p : String)
    (entries : List FileInfo) :
    schedules (list cfg p (.ok entries)).fst =
      (if cfg.ignoreWrongFileEncoding then []
       else if ((entries.map (fun f => bin2str cfg.fileNameEncoding f.name)).filter
            suspectName).isEmpty
        then []
        else [(entries.map (fun f => bin2str cfg.fileNameEncoding f.name)).filter
            suspectName]) :=
  list_ok_schedules cfg p entries

/-! ## Announce/settle counting -/

/-- The `upload` announces once and settles once on both exit paths. -/
theorem counts_upload (cfg : ServerConfig) (p : String)
    (res : Except Err Unit) :
    countSet (upload cfg p res).fst = 1 ∧
    countClose (upload cfg p res).fst = 1 := by
  cases res <;>
    simp [upload, countSet, countClose, logWithState, logOnly,
      List.countP_append, List.countP_cons]

/-- The `download` announces once and settles once on all three exit paths
(`_get` failure, stream `close`, stream `error`). -/
theorem counts_download (cfg : ServerConfig) (p : String)
    (res : Except Err StreamOutcome) :
    countSet (download cfg p res).fst = 1 ∧
    countClose (download cfg p res).fst = 1 := by
  cases res with
  | error e =>
    simp [download, countSet, countClose, logWithState, logOnly,
      List.countP_append, List.countP_cons]
  | ok o =>
    cases o <;>
      simp [download, countSet, countClose, logWithState, logOnly,
        List.countP_append, List.countP_cons]

/-- The `view` announces once and settles once on all three exit paths. -/
theorem counts_view (cfg : ServerConfig) (p : String)
    (res : Except Err (List (List Nat) × StreamOutcome)) :
    countSet (view cfg p res).fst = 1 ∧
    countClose (view cfg p res).fst = 1 := by
  cases res with
  | error e =>
    simp [view, countSet, countClose, logWithState, logOnly,
      List.countP_append, List.countP_cons]
  | ok o =>
    obtain ⟨chunks, oc⟩ := o
    cases oc <;>
      simp [view, countSet, countClose, logWithState, logOnly,
        List.countP_append, List.countP_cons]

/-- The `write` announces once and settles once on both exit paths. -/
theorem counts_write (cfg : ServerConfig) (p : String)
    (res : Except Err Unit) :
    countSet (write cfg p res).fst = 1 ∧
    countClose (write cfg p res).fst = 1 := by
  cases res <;>
    simp [write, countSet, countClose, logWithState, logOnly,
      List.countP_append, List.countP_cons]

/-- The `rename` announces once and settles once on both exit paths. -/
theorem counts_rename (cfg : ServerConfig) (p q : String)
    (res : Except Err Unit) :
    countSet (rename cfg p q res).fst = 1 ∧
    countClose (rename cfg p q res).fst = 1 := by
  cases res <;>
    simp [rename, countSet, countClose, logWithState, logOnly,
      List.countP_append, List.countP_cons]

/-- The `_callWithName` announces once and settles once on all three exit
paths (success, swallowed failure, propagated failure). -/
theorem counts_callWithName {α : Type} (cfg : ServerConfig)
    (name p : String) (code : Nat) (defVal : α) (res : Except Err α) :
    countSet (callWithName cfg name p code defVal res).fst = 1 ∧
    countClose (callWithName cfg name p code defVal res).fst = 1 := by
  cases res with
  | ok v =>
    simp [callWithName, countSet, countClose, logWithState, logOnly,
      List.countP_append, List.countP_cons]
  | error e =>
    by_cases he : e.ftpCode = some code <;>
      simp [callWithName, he, countSet, countClose, logWithState, logOnly,
        List.countP_append, List.countP_cons]

/-- The `list` announces once and settles once on both exit paths, whether or
not a callback is scheduled. -/
theorem counts_list (cfg : ServerConfig) (p : String)
    (res : Except Err (List FileInfo)) :
    countSet (list cfg p res).fst = 1 ∧
    countClose (list cfg p res).fst = 1 := by
  cases res with
  | ok entries =>
    simp only [list, countSet, countClose, List.countP_append]
    constructor <;>
      · split <;>
        split <;>
        simp [logWithState, List.countP_cons]
  | error e =>
    simp only [list]
    split <;>
      simp [countSet, countClose, logWithState, logOnly,
        List.countP_append, List.countP_cons]

/-- The `readlink` on a symlink entry announces once and settles once on both
exit paths. -/
theorem counts_readlink (cfg : ServerConfig) (normalize : String → String)
    (fi : FileInfo) (p : String) (res : Except Err String)
    (h : fi.type = 'l') :
    countSet (readlink cfg normalize fi p res).fst = 1 ∧
    countClose (readlink cfg normalize fi p res).fst = 1 := by
  cases res <;>
    simp [readlink, h, countSet, countClose, logWithState, logOnly,
      List.countP_append, List.countP_cons]

/-- C1 counterexample: `readlink` invoked on a non-symlink entry is a
propagated-failure exit of a Transfer Operation on which `stateBar.close`
is called zero times, not once (and `stateBar.set` is never called
either). -/
theorem settle_once_counterexample :
    countClose (readlink cfg0 id fiDir "/a" (.ok "x")).fst ≠ 1 ∧
    countClose (readlink cfg0 id fiDir "/a" (.ok "x")).fst = 0 ∧
    countSet (readlink cfg0 id fiDir "/a" (.ok "x")).fst = 0 := by
  decide

/-- C1 amended: every invocation of upload, download, view, write, list,
rmdir, delete, mkdir and rename — and every `readlink` invocation on a
symlink entry — calls `stateBar.set` exactly once at entry and
`stateBar.close` exactly once, on every exit path (success, swallowed
failure, propagated failure, stream close and stream error alike);
`readlink` on a non-symlink entry instead throws synchronously with
neither call. -/
theorem settle_once (cfg : ServerConfig) (p q : String)
    (ru rw rr : Except Err Unit) (rd : Except Err StreamOutcome)
    (rv : Except Err (List (List Nat) × StreamOutcome))
    (rl : Except Err (List FileInfo)) (normalize : String → String)
    (fi : FileInfo) (rk : Except Err String) :
    (countSet (upload cfg p ru).fst = 1 ∧
      countClose (upload cfg p ru).fst = 1) ∧
    (countSet (download cfg p rd).fst = 1 ∧
      countClose (download cfg p rd).fst = 1) ∧
    (countSet (view cfg p rv).fst = 1 ∧
      countClose (view cfg p rv).fst = 1) ∧
    (countSet (write cfg p rw).fst = 1 ∧
      countClose (write cfg p rw).fst = 1) ∧
    (countSet (list cfg p rl).fst = 1 ∧
      countClose (list cfg p rl).fst = 1) ∧
    (countSet (rmdir cfg p ru).fst = 1 ∧
      countClose (rmdir cfg p ru).fst = 1) ∧
    (countSet (deleteOp cfg p ru).fst = 1 ∧
      countClose (deleteOp cfg p ru).fst = 1) ∧
    (countSet (mkdir cfg p ru).fst = 1 ∧
      countClose (mkdir cfg p ru).fst = 1) ∧
    (countSet (rename cfg p q rr).fst = 1 ∧
      countClose (rename cfg p q rr).fst = 1) ∧
    (fi.type = 'l' →
      countSet (readlink cfg normalize fi p rk).fst = 1 ∧
      countClose (readlink cfg normalize fi p rk).fst = 1) ∧
    (fi.type ≠ 'l' →
      countSet (readlink cfg normalize fi p rk).fst = 0 ∧
      countClose (readlink cfg normalize fi p rk).fst = 0) :=
  ⟨counts_upload cfg p ru, counts_download cfg p rd, counts_view cfg p rv,
    counts_write cfg p rw, counts_list cfg p rl,
    counts_callWithName cfg "rmdir" p FtpErrorCode.FILE_NOT_FOUND () ru,
    counts_callWithName cfg "delete" p FtpErrorCode.FILE_NOT_FOUND () ru,
    counts_callWithName cfg "mkdir" p 0 () ru,
    counts_rename cfg p q rr,
    fun h => counts_readlink cfg normalize fi p rk h,
    fun h => by simp [readlink, h, countSet, countClose]⟩

/-- Witness for C1's amended claim: a symlink `readlink` and a mkdir
failure both settle exactly once. -/
theorem settle_once_witness :
    fiLink.type = 'l' ∧
    countClose (readlink cfg0 id fiLink "/a" (.ok "x")).fst = 1 ∧
    countClose (mkdir cfg0 "/q" (.error ⟨none, "denied"⟩)).fst = 1 := by
  have h := settle_once cfg0 "/q" "/r" (.error ⟨none, "denied"⟩) (.ok ())
    (.ok ()) (.ok .closed) (.ok ([], .closed)) (.ok []) id fiLink (.ok "x")
  exact ⟨rfl, (h.2.2.2.2.2.2.2.2.2.1 rfl).2, h.2.2.2.2.2.2.2.1.2⟩

/-! ## ASCII round-trip stability of the transcoder -/

/-- A code point below 0xD800 survives `Char.ofNat`/`Char.toNat`. -/
theorem char_toNat_ofNat (b : Nat) (h : b ≤ 255) :
    (Char.ofNat b).toNat = b := by
  have hv : Nat.isValidChar b := Or.inl (by omega)
  simp [Char.ofNat, hv, Char.ofNatAux, Char.toNat, UInt32.toNat,
    BitVec.toNat_ofNatLt]

/-- Every byte produced by the latin1 encoder is a byte. -/
theorem latin1_encode_bytes (t : String) : ∀ b ∈ latin1.encode t, b ≤ 255 := by
  intro b hb
  simp only [latin1, List.mem_map] at hb
  obtain ⟨c, -, rfl⟩ := hb
  split <;> omega

/-- Decoding a byte list as latin1 and re-encoding it as latin1 is the
identity: the `'binary'` leg of the transcoder loses nothing on bytes. -/
theorem latin1_encode_decode (bs : List Nat) (h : ∀ b ∈ bs, b ≤ 255) :
    latin1.encode (latin1.decode bs) = bs := by
  simp only [latin1, List.map_map]
  conv_rhs => rw [← List.map_id bs]
  apply List.map_congr_left
  intro b hb
  simp [Function.comp, char_toNat_ofNat b (h b hb), h b hb]

/-- Encoding an ASCII string as latin1 and decoding it back is the
identity. -/
theorem latin1_ascii_roundtrip (t : String)
    (h : ∀ c ∈ t.data, c.toNat < 128) :
    latin1.decode (latin1.encode t) = t := by
  have hl : (latin1.encode t).map Char.ofNat = t.data := by
    simp only [latin1, List.map_map]
    conv_rhs => rw [← List.map_id t.data]
    apply List.map_congr_left
    intro c hc
    have hle : c.toNat ≤ 255 := by have := h c hc; omega
    simp [Function.comp, hle, Char.ofNat_toNat]
  show String.mk ((latin1.encode t).map Char.ofNat) = t
  rw [hl]

/-- C8: for a name consisting only of ASCII characters, transcoding to
wire form and back to host form is the identity — `bin2str (str2bin n)`
is `n` — for any configured `fileNameEncoding` that (like every iconv
charset) emits bytes and round-trips ASCII strings.  The content proper
to the source is that the fixed `'binary'` (latin1) leg of both
directions cancels exactly on byte output, so the composite reduces to
the configured charset's own round trip. -/
theorem ascii_roundtrip (enc : Charset) (s : String)
    (hascii : ∀ c ∈ s.data, c.toNat < 128)
    (hbytes : ∀ t : String, ∀ b ∈ enc.encode t, b ≤ 255)
    (hrt : ∀ t : String, (∀ c ∈ t.data, c.toNat < 128) →
      enc.decode (enc.encode t) = t) :
    bin2str enc (str2bin enc s) = s := by
  unfold bin2str str2bin
  rw [latin1_encode_decode (enc.encode s) (hbytes s), hrt s hascii]

/-- Witness for C8: the configured charset `latin1` on the ASCII name
`abc`. -/
theorem ascii_roundtrip_witness :
    (∀ c ∈ "abc".data, c.toNat < 128) ∧
    bin2str latin1 (str2bin latin1 "abc") = "abc" :=
  ⟨by decide,
    ascii_roundtrip latin1 "abc" (by decide) latin1_encode_bytes
      (fun t ht => latin1_ascii_roundtrip t ht)⟩

end FtpKr
